import Mathlib

/-!
Verification of the Acid engine core (Sources/Engine/Engine.hpp) against its
specification.  The `ChangePerSecond` rate counter and the `Engine` state with
its inline member functions are embedded directly from the header; the parts
of the repository that the header only declares (the `ModuleHolder` registry,
the `Delta` / `Timer` timing helpers and the body of `Engine::Run`) are
modelled from the specification and marked as such in their doc comments.
Machine `uint32_t` counters are embedded as naturals reduced modulo `2 ^ 32`;
`float` timestamps are embedded as rationals with `Int.floor` standing for
`std::floor`.
-/

namespace acid

/-- Modulus of the C++ `uint32_t` type used by the rate-counter tallies. -/
def U32 : ℕ := 2 ^ 32

/-- State of `acid::ChangePerSecond` (Engine.hpp lines 12-30): a tally
`m_valueTemp`, a published value `m_value` (both `uint32_t`) and the last
recorded timestamp `m_valueTime` (a `float`, embedded as `ℚ`). -/
structure ChangePerSecond where
  m_valueTemp : ℕ
  m_value : ℕ
  m_valueTime : ℚ
deriving DecidableEq

/-- Embeds `ChangePerSecond::Update(const float &time)` (Engine.hpp lines 15-26):
increment the tally (`uint32_t` increment, hence modulo `2 ^ 32`); if the
floor of `time` exceeds the floor of the stored timestamp, publish the tally
and reset it; in every case store `time` as the new timestamp. -/
def ChangePerSecond.Update (time : ℚ) (s : ChangePerSecond) : ChangePerSecond :=
  let temp := (s.m_valueTemp + 1) % U32
  if Int.floor time > Int.floor s.m_valueTime then
    { m_valueTemp := 0, m_value := temp, m_valueTime := time }
  else
    { m_valueTemp := temp, m_value := s.m_value, m_valueTime := time }

/-- A zeroed rate counter (all fields zero). -/
def ChangePerSecond.zeroed : ChangePerSecond :=
  { m_valueTemp := 0, m_value := 0, m_valueTime := 0 }

/-- Feed one `Update` call per timestamp in the list, in order. -/
def ChangePerSecond.feed (ts : List ℚ) (s : ChangePerSecond) : ChangePerSecond :=
  ts.foldl (fun s t => ChangePerSecond.Update t s) s

namespace Module

/-- Modelled from the spec: the `Module::Stage` enumeration (declared in the
missing ModuleHolder.hpp), "an enumerated tag partitioning modules into
ordered execution buckets, e.g. Always, PreUpdate, UpdateNormal, PostUpdate,
Render". -/
inductive Stage
  | Always
  | PreUpdate
  | UpdateNormal
  | PostUpdate
  | Render
deriving DecidableEq

end Module

/-- Modelled from the spec: the `ModuleHolder` registry (ModuleHolder.hpp is
not in the source excerpt).  "A mapping from type identity to (Stage, Module)
pairs"; type identities are embedded as naturals and the mapping as an
association list in registration order, from which each stage's ordered
sequence is derived. -/
structure ModuleHolder where
  reg : List (ℕ × Module.Stage)
deriving DecidableEq

/-- Modelled from the spec: `ModuleHolder::Has` — presence check by type
identity. -/
def ModuleHolder.Has (tid : ℕ) (m : ModuleHolder) : Bool :=
  (m.reg.lookup tid).isSome

/-- Modelled from the spec: the per-stage ordered sequence (secondary index),
"within a stage, registration order is preserved and is the iteration
order". -/
def ModuleHolder.stageSequence (st : Module.Stage) (m : ModuleHolder) : List ℕ :=
  (m.reg.filter (fun p => p.2 == st)).map Prod.fst

/-- Modelled from the spec: `ModuleHolder::Add` — "registers a module under
its type identity and stage.  Fails (reports a conflict) if a module of that
type identity is already registered.  Side effect: appends to the stage's
ordered sequence."  Returns the new registry and `true` when a conflict was
reported. -/
def ModuleHolder.Add (tid : ℕ) (st : Module.Stage) (m : ModuleHolder) :
    ModuleHolder × Bool :=
  if m.Has tid then (m, true)
  else ({ reg := m.reg ++ [(tid, st)] }, false)

/-- Modelled from the spec: `ModuleHolder::Remove` — "unregisters and destroys
the module if present; no-op if absent". -/
def ModuleHolder.Remove (tid : ℕ) (m : ModuleHolder) : ModuleHolder :=
  { reg := m.reg.filter (fun p => p.1 != tid) }

/-- Modelled from the spec: a `Delta` accumulator (Maths/Delta.hpp is not in
the source excerpt) "tracks the timestamp of the last sample and returns
elapsed time since that sample on each query".  `change` is what
`GetChange()` returns. -/
structure Delta where
  lastSample : ℚ
  change : ℚ
deriving DecidableEq

/-- Embeds `Delta::GetChange` as used by `Engine::GetDelta` / `GetDeltaRender`. -/
def Delta.GetChange (d : Delta) : ℚ := d.change

/-- Modelled from the spec: an interval `Timer` (Maths/Timer.hpp is not in
the source excerpt) holding a reference point and a configured interval. -/
structure Timer where
  reference : ℚ
  interval : ℚ
deriving DecidableEq

/-- State of `acid::Engine` (Engine.hpp lines 193-210): exactly the private
fields of the class.  The `Game` pointer is embedded as an optional instance
identifier; `Time` quantities are embedded as rationals. -/
structure Engine where
  m_modules : ModuleHolder
  m_game : Option ℕ
  m_argv0 : String
  m_timeOffset : ℚ
  m_fpsLimit : ℚ
  m_running : Bool
  m_deltaUpdate : Delta
  m_deltaRender : Delta
  m_timerUpdate : Timer
  m_timerRender : Timer
  m_ups : ChangePerSecond
  m_fps : ChangePerSecond
deriving DecidableEq

/-- Embeds `Engine::RequestClose(const bool &error)` (Engine.hpp line 191): the body
is exactly `m_running = false;` — the `error` argument is not read. -/
def Engine.RequestClose (error : Bool) (s : Engine) : Engine :=
  { s with m_running := false }

/-- Embeds `Engine::IsRunning` (Engine.hpp line 161). -/
def Engine.IsRunning (s : Engine) : Bool := s.m_running

/-- Embeds `Engine::GetUps` (Engine.hpp line 179): returns `m_ups.m_value`. -/
def Engine.GetUps (s : Engine) : ℕ := s.m_ups.m_value

/-- Embeds `Engine::GetFps` (Engine.hpp line 185): returns `m_fps.m_value`. -/
def Engine.GetFps (s : Engine) : ℕ := s.m_fps.m_value

/-- Embeds `Engine::GetFpsLimit` (Engine.hpp line 149). -/
def Engine.GetFpsLimit (s : Engine) : ℚ := s.m_fpsLimit

/-- Embeds `Engine::SetFpsLimit` (Engine.hpp line 155). -/
def Engine.SetFpsLimit (fpsLimit : ℚ) (s : Engine) : Engine :=
  { s with m_fpsLimit := fpsLimit }

/-- Embeds `Engine::GetTimeOffset` (Engine.hpp line 137). -/
def Engine.GetTimeOffset (s : Engine) : ℚ := s.m_timeOffset

/-- Embeds `Engine::SetTimeOffset` (Engine.hpp line 143). -/
def Engine.SetTimeOffset (timeOffset : ℚ) (s : Engine) : Engine :=
  { s with m_timeOffset := timeOffset }

/-- Embeds `Engine::GetGame` (Engine.hpp line 107). -/
def Engine.GetGame (s : Engine) : Option ℕ := s.m_game

/-- Embeds `Engine::SetGame` (Engine.hpp line 113): `m_game.reset(game)` — the state
effect is to replace the held pointer (the destruction ordering of the old
instance is treated separately by the trace model below). -/
def Engine.SetGame (game : Option ℕ) (s : Engine) : Engine :=
  { s with m_game := game }

/-- Embeds `Engine::AddModule` (Engine.hpp lines 87-91): delegates to
`m_modules.Add`; the returned flag reports a registration conflict. -/
def Engine.AddModule (tid : ℕ) (st : Module.Stage) (s : Engine) :
    Engine × Bool :=
  let r := ModuleHolder.Add tid st s.m_modules
  ({ s with m_modules := r.1 }, r.2)

/-- Embeds `Engine::RemoveModule` (Engine.hpp lines 97-101): delegates to
`m_modules.Remove`. -/
def Engine.RemoveModule (tid : ℕ) (s : Engine) : Engine :=
  { s with m_modules := ModuleHolder.Remove tid s.m_modules }

/-- The mutating public `Engine` operations available after construction. -/
inductive EngineOp
  | addModule (tid : ℕ) (st : Module.Stage)
  | removeModule (tid : ℕ)
  | setGame (game : Option ℕ)
  | setTimeOffset (timeOffset : ℚ)
  | setFpsLimit (fpsLimit : ℚ)
  | requestClose (error : Bool)
deriving DecidableEq

/-- Effect of one public operation on the engine state. -/
def EngineOp.apply (op : EngineOp) (s : Engine) : Engine :=
  match op with
  | .addModule tid st => (Engine.AddModule tid st s).1
  | .removeModule tid => Engine.RemoveModule tid s
  | .setGame game => Engine.SetGame game s
  | .setTimeOffset timeOffset => Engine.SetTimeOffset timeOffset s
  | .setFpsLimit fpsLimit => Engine.SetFpsLimit fpsLimit s
  | .requestClose error => Engine.RequestClose error s

/-- Run a sequence of public operations from a given engine state. -/
def Engine.runOps (ops : List EngineOp) (s : Engine) : Engine :=
  ops.foldl (fun s op => op.apply s) s

/-- A concrete freshly-constructed engine state: empty registry, no game,
fps limit `-1` ("disables limits" per the header comment), running. -/
def engine0 : Engine :=
  { m_modules := { reg := [] }
    m_game := none
    m_argv0 := ""
    m_timeOffset := 0
    m_fpsLimit := -1
    m_running := true
    m_deltaUpdate := { lastSample := 0, change := 0 }
    m_deltaRender := { lastSample := 0, change := 0 }
    m_timerUpdate := { reference := 0, interval := 0 }
    m_timerRender := { reference := 0, interval := 0 }
    m_ups := ChangePerSecond.zeroed
    m_fps := ChangePerSecond.zeroed }

/-- A concrete engine state whose registry already holds type identity 1. -/
def engine1 : Engine :=
  { engine0 with m_modules := { reg := [(1, Module.Stage.PreUpdate)] } }

/-- A concrete engine state whose rate counters sit inside second 5. -/
def engineC10 : Engine :=
  { engine0 with
    m_ups := { m_valueTemp := 0, m_value := 7, m_valueTime := 5 }
    m_fps := { m_valueTemp := 2, m_value := 9, m_valueTime := 5 } }

/-- Modelled from the spec: the frame-rate throttle of the loop body
(`Engine::Run` is declared at Engine.hpp line 56 but its body, Engine.cpp, is
not in the source excerpt).  "If a frame-rate cap is configured (> 0), and
the measured inter-render interval is shorter than 1/cap seconds, block/yield
for the remaining time"; a cap of exactly 0 or negative means unlimited.
Returns the bounded suspension duration, or `none` when the iteration does
not block. -/
def throttleDuration (fpsLimit interval : ℚ) : Option ℚ :=
  if 0 < fpsLimit ∧ interval < 1 / fpsLimit then
    some (1 / fpsLimit - interval)
  else
    none

/-- Observable events of the Game object lifecycle, for the ordering between
`Engine::SetGame` and the loop's invocation of the Game update hook.  Game
instances are identified by naturals. -/
inductive GameEvent
  | destroy (g : ℕ)
  | install (g : ℕ)
  | updateHook (g : ℕ)
deriving DecidableEq

/-- State of the game slot together with the recorded event history. -/
structure GameLoopState where
  game : Option ℕ
  trace : List GameEvent
deriving DecidableEq

/-- Events emitted by one `SetGame` call: `m_game.reset(game)` runs the old
instance's destructor to completion inside the call, then holds the new
pointer. -/
def swapEvents (old : Option ℕ) (g : ℕ) : List GameEvent :=
  match old with
  | some o => [GameEvent.destroy o, GameEvent.install g]
  | none => [GameEvent.install g]

/-- Effect of `Engine::SetGame` (Engine.hpp line 113) on the game slot and
the event history: the previous instance (if any) is destroyed, then the new
instance is installed, all before the call returns. -/
def GameLoopState.setGame (g : ℕ) (s : GameLoopState) : GameLoopState :=
  { game := some g, trace := s.trace ++ swapEvents s.game g }

/-- Events emitted by one loop tick on the game slot. -/
def tickEvents (game : Option ℕ) : List GameEvent :=
  match game with
  | some g => [GameEvent.updateHook g]
  | none => []

/-- Modelled from the spec: one tick of the single-threaded run loop
(`Engine::Run`, whose body Engine.cpp is not in the source excerpt) "invokes
the Game's update hook once per tick" on the currently held instance. -/
def GameLoopState.tick (s : GameLoopState) : GameLoopState :=
  { s with trace := s.trace ++ tickEvents s.game }

/-- Interleavings of loop ticks and `SetGame` swaps, all on the single loop
thread. -/
inductive LoopOp
  | swap (g : ℕ)
  | tick
deriving DecidableEq

/-- Run a sequence of loop operations from a given state. -/
def LoopOp.run : List LoopOp → GameLoopState → GameLoopState
  | [], s => s
  | op :: ops, s =>
    LoopOp.run ops (match op with
      | LoopOp.swap g => s.setGame g
      | LoopOp.tick => s.tick)

/-- C1: the claim says the error flag passed to `RequestClose` is the sole
determinant of the exit status of `Run()`.  The code drops the flag: the body
of `RequestClose` is exactly `m_running = false;`, no error field exists, so
the engine state after `RequestClose(true)` is identical to the state after
`RequestClose(false)` (shown here at the fresh engine state) and no run exit
status can depend on the flag. -/
theorem requestClose_discards_error_flag :
    Engine.RequestClose true engine0 = Engine.RequestClose false engine0 ∧
    (Engine.RequestClose true engine0).m_running = false :=
  ⟨rfl, rfl⟩

/-- C2 counterexample: fed one increment per call at timestamps
0.1, 0.9, 1.2 from a zeroed counter, the published value immediately after
the Update at time 1.2 is not 2 (it is 3: the publishing call increments the
tally before the boundary check commits it). -/
theorem rateCounter_third_sample_not_two :
    ¬ (ChangePerSecond.feed [1/10, 9/10, 12/10]
        ChangePerSecond.zeroed).m_value = 2 := by
  norm_num [ChangePerSecond.feed, ChangePerSecond.Update,
    ChangePerSecond.zeroed, U32]

/-- C2 amended: fed one increment per call at timestamps
0.1, 0.9, 1.2, 1.8, 2.05 from a zeroed counter, the published value is 3
immediately after the Update at time 1.2 (its own increment is part of the
committed tally) and 2 immediately after the Update at time 2.05, with the
tally reset to zero after each publish. -/
theorem rateCounter_trace_values :
    (ChangePerSecond.feed [1/10, 9/10, 12/10]
      ChangePerSecond.zeroed).m_value = 3 ∧
    (ChangePerSecond.feed [1/10, 9/10, 12/10]
      ChangePerSecond.zeroed).m_valueTemp = 0 ∧
    (ChangePerSecond.feed [1/10, 9/10, 12/10, 18/10, 41/20]
      ChangePerSecond.zeroed).m_value = 2 ∧
    (ChangePerSecond.feed [1/10, 9/10, 12/10, 18/10, 41/20]
      ChangePerSecond.zeroed).m_valueTemp = 0 := by
  norm_num [ChangePerSecond.feed, ChangePerSecond.Update,
    ChangePerSecond.zeroed, U32]

/-- C3: every `ChangePerSecond::Update(time)` call increments the tally by
one (a `uint32_t` increment, hence modulo 2^32); exactly when the floor
second of `time` exceeds the floor second of the stored timestamp, the
incremented tally becomes the published value and the tally resets to zero,
otherwise the published value is unchanged and the incremented tally is
kept; in every case the stored timestamp becomes `time`. -/
theorem update_tallies_publishes_and_stamps (t : ℚ) (s : ChangePerSecond) :
    (ChangePerSecond.Update t s).m_valueTime = t ∧
    (ChangePerSecond.Update t s).m_value =
      (if Int.floor t > Int.floor s.m_valueTime then (s.m_valueTemp + 1) % U32
       else s.m_value) ∧
    (ChangePerSecond.Update t s).m_valueTemp =
      (if Int.floor t > Int.floor s.m_valueTime then 0
       else (s.m_valueTemp + 1) % U32) := by
  unfold ChangePerSecond.Update
  split <;> simp_all

/-- C4: `RequestClose` is idempotent — for every engine state, a second call
with any error-flag argument (including calls made after the loop has
already stopped, i.e. states with the running flag already false) leaves the
state exactly as a single call does, so anything computed from the state
afterwards, the eventual run return value included, is the same. -/
theorem requestClose_idempotent (e1 e2 : Bool) (s : Engine) :
    Engine.RequestClose e2 (Engine.RequestClose e1 s) =
      Engine.RequestClose e1 s :=
  rfl

/-- C9: for every engine state and both flag values, `RequestClose` clears
the running flag and leaves every other field of `Engine` (module registry,
game pointer, argv0 string, time offset, fps limit, delta accumulators,
interval timers, rate counters) unchanged, and the state after
`RequestClose(true)` equals the state after `RequestClose(false)`. -/
theorem requestClose_clears_only_running (error : Bool) (s : Engine) :
    (Engine.RequestClose error s).m_running = false ∧
    (Engine.RequestClose error s).m_modules = s.m_modules ∧
    (Engine.RequestClose error s).m_game = s.m_game ∧
    (Engine.RequestClose error s).m_argv0 = s.m_argv0 ∧
    (Engine.RequestClose error s).m_timeOffset = s.m_timeOffset ∧
    (Engine.RequestClose error s).m_fpsLimit = s.m_fpsLimit ∧
    (Engine.RequestClose error s).m_deltaUpdate = s.m_deltaUpdate ∧
    (Engine.RequestClose error s).m_deltaRender = s.m_deltaRender ∧
    (Engine.RequestClose error s).m_timerUpdate = s.m_timerUpdate ∧
    (Engine.RequestClose error s).m_timerRender = s.m_timerRender ∧
    (Engine.RequestClose error s).m_ups = s.m_ups ∧
    (Engine.RequestClose error s).m_fps = s.m_fps ∧
    Engine.RequestClose true s = Engine.RequestClose false s :=
  ⟨rfl, rfl, rfl, rfl, rfl, rfl, rfl, rfl, rfl, rfl, rfl, rfl, rfl⟩

/-- Helper: no public mutating operation sets the running flag back to true. -/
lemma isRunning_apply_false (op : EngineOp) (s : Engine)
    (h : Engine.IsRunning s = false) :
    Engine.IsRunning (op.apply s) = false := by
  cases op <;>
    simp_all [EngineOp.apply, Engine.IsRunning, Engine.AddModule,
      Engine.RemoveModule, Engine.SetGame, Engine.SetTimeOffset,
      Engine.SetFpsLimit, Engine.RequestClose, ModuleHolder.Add]

/-- C5: within a run, the running flag is only ever cleared — once
`IsRunning()` observes false, every sequence of public engine operations
performed afterwards still observes false. -/
theorem running_flag_never_reset (ops : List EngineOp) (s : Engine)
    (h : Engine.IsRunning s = false) :
    Engine.IsRunning (Engine.runOps ops s) = false := by
  induction ops generalizing s with
  | nil => exact h
  | cons op ops ih => exact ih _ (isRunning_apply_false op s h)

/-- Witness for C5 at a concrete stopped state and operation sequence. -/
theorem running_flag_never_reset_witness :
    Engine.IsRunning (Engine.RequestClose false engine0) = false ∧
    Engine.IsRunning (Engine.runOps
      [EngineOp.setFpsLimit 60, EngineOp.addModule 1 Module.Stage.Render,
       EngineOp.requestClose true, EngineOp.setGame (some 2)]
      (Engine.RequestClose false engine0)) = false :=
  ⟨rfl, running_flag_never_reset _ _ rfl⟩

/-- C7: adding a module whose type identity is already registered leaves the
registry (hence the existing instance, its stage and every stage's ordered
sequence) completely unchanged and reports the conflict to the caller. -/
theorem addModule_conflict_is_noop (tid : ℕ) (st : Module.Stage) (s : Engine)
    (h : ModuleHolder.Has tid s.m_modules = true) :
    (Engine.AddModule tid st s).1 = s ∧
    (Engine.AddModule tid st s).2 = true ∧
    ∀ st2, ModuleHolder.stageSequence st2 (Engine.AddModule tid st s).1.m_modules =
      ModuleHolder.stageSequence st2 s.m_modules := by
  simp [Engine.AddModule, ModuleHolder.Add, h]

/-- Witness for C7 at a concrete registry already holding type identity 1. -/
theorem addModule_conflict_is_noop_witness :
    ModuleHolder.Has 1 engine1.m_modules = true ∧
    (Engine.AddModule 1 Module.Stage.Render engine1).1 = engine1 ∧
    (Engine.AddModule 1 Module.Stage.Render engine1).2 = true :=
  ⟨rfl, (addModule_conflict_is_noop 1 Module.Stage.Render engine1 rfl).1,
    (addModule_conflict_is_noop 1 Module.Stage.Render engine1 rfl).2.1⟩

/-- C8: a configured frame-rate cap of exactly 0 or negative performs no
throttling — the loop iteration never blocks for the cap (equivalently, a
bounded suspension can only arise from a strictly positive cap). -/
theorem nonpositive_cap_never_throttles (s : Engine) (cap interval : ℚ)
    (h : cap ≤ 0) :
    throttleDuration (Engine.GetFpsLimit (Engine.SetFpsLimit cap s))
      interval = none := by
  unfold Engine.GetFpsLimit Engine.SetFpsLimit throttleDuration
  exact if_neg fun hc => absurd hc.1 (not_lt.2 h)

/-- Witness for C8 at cap 0 and cap -1. -/
theorem nonpositive_cap_never_throttles_witness :
    ((0 : ℚ) ≤ 0 ∧
      throttleDuration (Engine.GetFpsLimit (Engine.SetFpsLimit 0 engine0))
        (1/2) = none) ∧
    ((-1 : ℚ) ≤ 0 ∧
      throttleDuration (Engine.GetFpsLimit (Engine.SetFpsLimit (-1) engine0))
        (1/2) = none) :=
  ⟨⟨by norm_num, nonpositive_cap_never_throttles engine0 0 (1/2) (by norm_num)⟩,
   ⟨by norm_num, nonpositive_cap_never_throttles engine0 (-1) (1/2) (by norm_num)⟩⟩

/-- Helper: an `Update` whose floor second does not exceed the stored floor
second leaves the published value untouched. -/
lemma update_value_of_floor_le (t : ℚ) (c : ChangePerSecond)
    (h : Int.floor t ≤ Int.floor c.m_valueTime) :
    (ChangePerSecond.Update t c).m_value = c.m_value := by
  simp [ChangePerSecond.Update, not_lt.2 h]

/-- C10: the published value read through `GetUps` / `GetFps` is unchanged
by any `Update` call whose time has the same or a smaller floor second than
the stored last timestamp — in particular repeated updates within one
integer second, and updates whose time goes backwards, never publish. -/
theorem stale_update_preserves_published (s : Engine) (t u : ℚ)
    (ht : Int.floor t ≤ Int.floor s.m_ups.m_valueTime)
    (hu : Int.floor u ≤ Int.floor s.m_fps.m_valueTime) :
    Engine.GetUps { s with m_ups := ChangePerSecond.Update t s.m_ups } =
      Engine.GetUps s ∧
    Engine.GetFps { s with m_fps := ChangePerSecond.Update u s.m_fps } =
      Engine.GetFps s :=
  ⟨update_value_of_floor_le t s.m_ups ht, update_value_of_floor_le u s.m_fps hu⟩

/-- Witness for C10: same-second and backwards updates at a concrete state. -/
theorem stale_update_preserves_published_witness :
    Int.floor (5 : ℚ) ≤ Int.floor engineC10.m_ups.m_valueTime ∧
    Int.floor (3 : ℚ) ≤ Int.floor engineC10.m_fps.m_valueTime ∧
    Engine.GetUps { engineC10 with
      m_ups := ChangePerSecond.Update 5 engineC10.m_ups } =
      Engine.GetUps engineC10 ∧
    Engine.GetFps { engineC10 with
      m_fps := ChangePerSecond.Update 3 engineC10.m_fps } =
      Engine.GetFps engineC10 := by
  have h1 : Int.floor (5 : ℚ) ≤ Int.floor engineC10.m_ups.m_valueTime := by
    norm_num [engineC10, engine0]
  have h2 : Int.floor (3 : ℚ) ≤ Int.floor engineC10.m_fps.m_valueTime := by
    norm_num [engineC10, engine0]
  exact ⟨h1, h2, (stale_update_preserves_published engineC10 5 3 h1 h2).1,
    (stale_update_preserves_published engineC10 5 3 h1 h2).2⟩

/-- Helper: running loop operations only ever appends to the event trace. -/
lemma run_trace_eq (ops : List LoopOp) (s : GameLoopState) :
    ∃ ext, (LoopOp.run ops s).trace = s.trace ++ ext := by
  induction ops generalizing s with
  | nil => exact ⟨[], (List.append_nil _).symm⟩
  | cons op ops ih =>
    cases op with
    | swap g =>
      obtain ⟨ext, hext⟩ := ih (s.setGame g)
      refine ⟨swapEvents s.game g ++ ext, ?_⟩
      show (LoopOp.run ops (s.setGame g)).trace = _
      rw [hext]
      simp [GameLoopState.setGame]
    | tick =>
      obtain ⟨ext, hext⟩ := ih s.tick
      refine ⟨tickEvents s.game ++ ext, ?_⟩
      show (LoopOp.run ops s.tick).trace = _
      rw [hext]
      simp [GameLoopState.tick]

/-- C6: when the Game object is replaced via `SetGame` while the loop is
running, the destruction of the previous instance precedes the first
invocation of the new instance's update hook in the event history — for
every interleaving of further ticks and swaps executed after the
replacement. -/
theorem setGame_destroy_precedes_new_update (ops : List LoopOp)
    (s : GameLoopState) (o g : ℕ)
    (hgame : s.game = some o)
    (hnew : GameEvent.updateHook g ∉ s.trace) :
    GameEvent.destroy o ∈ (LoopOp.run ops (s.setGame g)).trace ∧
    (LoopOp.run ops (s.setGame g)).trace.indexOf (GameEvent.destroy o) <
      (LoopOp.run ops (s.setGame g)).trace.indexOf (GameEvent.updateHook g) := by
  obtain ⟨ext, hext⟩ := run_trace_eq ops (s.setGame g)
  have hp : (s.setGame g).trace =
      s.trace ++ [GameEvent.destroy o, GameEvent.install g] := by
    simp [GameLoopState.setGame, swapEvents, hgame]
  have ht : (LoopOp.run ops (s.setGame g)).trace =
      (s.trace ++ [GameEvent.destroy o, GameEvent.install g]) ++ ext := by
    rw [hext, hp]
  have hmem : GameEvent.destroy o ∈
      s.trace ++ [GameEvent.destroy o, GameEvent.install g] := by simp
  have hnotmem : GameEvent.updateHook g ∉
      s.trace ++ [GameEvent.destroy o, GameEvent.install g] := by
    simp [hnew]
  constructor
  · rw [ht]
    exact List.mem_append_left _ hmem
  · rw [ht, List.indexOf_append_of_mem hmem,
      List.indexOf_append_of_not_mem hnotmem]
    have hlt : List.indexOf (GameEvent.destroy o)
        (s.trace ++ [GameEvent.destroy o, GameEvent.install g]) <
        (s.trace ++ [GameEvent.destroy o, GameEvent.install g]).length :=
      List.indexOf_lt_length.2 hmem
    exact lt_of_lt_of_le hlt (Nat.le_add_right _ _)

/-- Witness for C6: a swap from instance 1 to instance 2 followed by one
tick, evaluated on the concrete trace. -/
theorem setGame_destroy_precedes_new_update_witness :
    (⟨some 1, []⟩ : GameLoopState).game = some 1 ∧
    GameEvent.updateHook 2 ∉ (⟨some 1, []⟩ : GameLoopState).trace ∧
    GameEvent.destroy 1 ∈
      (LoopOp.run [LoopOp.tick]
        (GameLoopState.setGame 2 ⟨some 1, []⟩)).trace ∧
    (LoopOp.run [LoopOp.tick]
        (GameLoopState.setGame 2 ⟨some 1, []⟩)).trace.indexOf
        (GameEvent.destroy 1) <
      (LoopOp.run [LoopOp.tick]
        (GameLoopState.setGame 2 ⟨some 1, []⟩)).trace.indexOf
        (GameEvent.updateHook 2) := by
  have h := setGame_destroy_precedes_new_update [LoopOp.tick]
    ⟨some 1, []⟩ 1 2 rfl (by simp)
  exact ⟨rfl, by simp, h.1, h.2⟩

end acid
